import Mathlib

/-!
Verification of the TruckPooling trip-generation / set-covering pipeline.

Shallow embedding of `Trip_generation.py`, `Set_covering.py` and the
per-instance flow of `main.py`.  Python floats are idealised as exact
rationals (ℚ); Python's stable `sorted` is modelled by the stable
structural sort `List.insertionSort`; a pandas `DataFrame.at` lookup is
modelled as an `Option`-valued lookup that fails (KeyError) when the row
label is not in the index or the column label is not in the columns; the
KeyError such a lookup raises inside `generate_feasible_trips` is
modelled by the `Except` monad.  The score division
`trip_distance / direct_distances` is on numpy scalars (pandas `.at`
returns them), so a zero denominator raises nothing: it yields `nan`
(here `0/0`, the only reachable case, since a positive numerator with a
zero denominator is rejected by the preceding detour check) and the trip
is appended with that score.  ℚ cannot represent `nan`; the model
appends the trip with the same expression `trip_distance / dd`, whose
value under Lean's `x / 0 = 0` convention is a stand-in junk value for
`nan`, and no theorem relies on the score of a zero-denominator trip.
-/

/-- `Delivery` namedtuple from `utils.py`. -/
structure Delivery where
  id : String
  goods_type : String
  weight_kg : ℚ
  volume_m3 : ℚ
  goods_ready : ℚ
  delivery_window : ℚ × ℚ
  gha : String
  pickup_location : String
  available_weight : ℚ
  available_volume : ℚ
  loaded_goods_ids : List String
deriving DecidableEq, Repr, Inhabited

/-- The pandas distance `DataFrame`: a row index, a column index and the
table entries.  `DataFrame.at[a, b]` succeeds iff `a` is a row label and
`b` is a column label. -/
structure DistMatrix where
  index : List String
  cols : List String
  entry : String → String → ℚ

/-- `dist_matrix.at[a, b]`: `none` models the `KeyError` raised by pandas
when either label is absent. -/
def df_at (m : DistMatrix) (a b : String) : Option ℚ :=
  if a ∈ m.index ∧ b ∈ m.cols then some (m.entry a b) else none

/-- `compute_trip_distance` from `Trip_generation.py`: sum of the
consecutive-pair distances along `loc_sequence`; `none` when some lookup
raises. -/
def compute_trip_distance : List String → DistMatrix → Option ℚ
  | [], _ => some 0
  | [_], _ => some 0
  | a :: b :: rest, m =>
    match df_at m a b, compute_trip_distance (b :: rest) m with
    | some d, some rest_d => some (d + rest_d)
    | _, _ => none

/-- `max_wait_time` from `Trip_generation.py`: sort the `goods_ready`
times, return the largest gap between consecutive times, `0` for fewer
than two deliveries. -/
def max_wait_time (deliveries : List Delivery) : ℚ :=
  let times := List.insertionSort (fun a b => a ≤ b) (deliveries.map Delivery.goods_ready)
  let waits := List.zipWith (fun t1 t2 => t2 - t1) times times.tail
  match waits with
  | [] => 0
  | w :: ws => ws.foldl max w

/-- `check_capacity` from `Trip_generation.py`. -/
def check_capacity (deliveries : List Delivery) (max_weight max_volume : ℚ) : Bool :=
  let total_weight := (deliveries.map Delivery.weight_kg).sum
  let total_volume := (deliveries.map Delivery.volume_m3).sum
  let avail_weight_ok := deliveries.all fun d => decide (d.weight_kg ≤ d.available_weight)
  let avail_volume_ok := deliveries.all fun d => decide (d.volume_m3 ≤ d.available_volume)
  decide (total_weight ≤ max_weight) && decide (total_volume ≤ max_volume) &&
    avail_weight_ok && avail_volume_ok

/-- `check_time_window` from `Trip_generation.py`: latest `goods_ready`
must be ≤ earliest delivery-window end.  Only ever applied to nonempty
combinations (Python's `max`/`min` would raise on an empty one). -/
def check_time_window (deliveries : List Delivery) : Bool :=
  match deliveries with
  | [] => true
  | d :: rest =>
    let latest_ready := rest.foldl (fun a x => max a x.goods_ready) d.goods_ready
    let earliest_due := rest.foldl (fun a x => min a x.delivery_window.2) d.delivery_window.2
    decide (latest_ready ≤ earliest_due)

/-- `MAX_PICKUPS` from `Trip_generation.py`. -/
def MAX_PICKUPS : Nat := 3

/-- `MAX_WAIT_SLOT` from `Trip_generation.py`. -/
def MAX_WAIT_SLOT : ℚ := 2

/-- `MAX_DISTANCE_INCREASE_RATIO` from `Trip_generation.py`, renamed here (the float
literal `0.2` idealised as the rational `1/5`). -/
def MAX_DISTANCE_INCREASE : ℚ := 1/5

/-- The trip dictionary appended by `generate_feasible_trips`. -/
structure Trip where
  source : String
  shipment_ids : List String
  total_km : ℚ
  total_weight : ℚ
  total_volume : ℚ
  score : ℚ
deriving DecidableEq, Repr, Inhabited

/-- The exception `generate_feasible_trips` can raise: `KeyError` from a
distance lookup on an unknown location (the score division on numpy
scalars never raises; see the module docstring). -/
inductive TripGenError where
  | unknownLocation : TripGenError
deriving DecidableEq, Repr

/-- `itertools.combinations`: all `r`-element subsequences, in the same
(lexicographic-by-position) order Python enumerates them. -/
def combinations : Nat → List Delivery → List (List Delivery)
  | 0, _ => [[]]
  | _ + 1, [] => []
  | r + 1, x :: xs => ((combinations r xs).map (x :: ·)) ++ combinations (r + 1) xs

/-- `sum(d.weight_kg for d in combo)` etc.: the trip record built from a
combination once all checks have passed. -/
def trip_of (combo : List Delivery) (trip_distance score : ℚ) : Trip :=
  { source := combo.headI.id
    shipment_ids := combo.map Delivery.id
    total_km := trip_distance
    total_weight := (combo.map Delivery.weight_kg).sum
    total_volume := (combo.map Delivery.volume_m3).sum
    score := score }

/-- `sum(compute_trip_distance([d.pickup_location, "Mpx"], dist_matrix)
for d in combo)`. -/
def direct_distances : List Delivery → DistMatrix → Option ℚ
  | [], _ => some 0
  | d :: rest, m =>
    match compute_trip_distance [d.pickup_location, "Mpx"] m, direct_distances rest m with
    | some x, some s => some (x + s)
    | _, _ => none

/-- The body of the `for combo in combinations(...)` loop of
`generate_feasible_trips`: `ok none` models `continue` (combination
rejected), `ok (some t)` models appending trip `t`, `error` models an
uncaught `KeyError`.  The score `trip_distance / dd` is numpy float
division, which never raises: a zero `dd` (reachable only together with
a zero `trip_distance`, by the detour check) yields a `nan` score and
the trip is still appended — in the model, appended with ℚ's
division-by-zero junk value (see the module docstring). -/
def processCombo (capacity_kg capacity_m3 : ℚ) (m : DistMatrix) (combo : List Delivery) :
    Except TripGenError (Option Trip) :=
  if check_capacity combo capacity_kg capacity_m3 = false then .ok none
  else if check_time_window combo = false then .ok none
  else if max_wait_time combo > MAX_WAIT_SLOT then .ok none
  else
    match compute_trip_distance (combo.map Delivery.pickup_location ++ ["Mpx"]) m with
    | none => .error .unknownLocation
    | some trip_distance =>
      match direct_distances combo m with
      | none => .error .unknownLocation
      | some dd =>
        if trip_distance > dd * (1 + MAX_DISTANCE_INCREASE) then .ok none
        else .ok (some (trip_of combo trip_distance (trip_distance / dd)))

/-- Run the loop body over a list of combinations, collecting the
accepted trips in order and propagating the first exception. -/
def processCombos (capacity_kg capacity_m3 : ℚ) (m : DistMatrix) :
    List (List Delivery) → Except TripGenError (List Trip)
  | [] => .ok []
  | c :: cs =>
    match processCombo capacity_kg capacity_m3 m c with
    | .error e => .error e
    | .ok none => processCombos capacity_kg capacity_m3 m cs
    | .ok (some t) =>
      match processCombos capacity_kg capacity_m3 m cs with
      | .error e => .error e
      | .ok ts => .ok (t :: ts)

/-- The combinations enumerated by the nested loops of
`generate_feasible_trips`: sizes `r = 1 .. MAX_PICKUPS`, each in
`itertools.combinations` order. -/
def allCombos (deliveries : List Delivery) : List (List Delivery) :=
  (List.range MAX_PICKUPS).flatMap fun r => combinations (r + 1) deliveries

/-- `generate_feasible_trips` from `Trip_generation.py`.  The
`incompat_set` parameter is accepted and ignored, as in the source (the
incompatibility check is commented out there). -/
def generate_feasible_trips (deliveries : List Delivery) (capacity_kg capacity_m3 : ℚ)
    (dist_matrix : DistMatrix) (incompat_set : List (String × String)) :
    Except TripGenError (List Trip) :=
  let _ := incompat_set
  processCombos capacity_kg capacity_m3 dist_matrix (allCombos deliveries)

/-- The ephemeral Gurobi model built by `solve_set_covering`
(`Set_covering.py`): one binary variable per trip (`numVars`), one
equality constraint per delivery id (the id together with the indices of
the trips whose `shipment_ids` contain it, constrained to sum to 1), and
the objective coefficient vector (one score per trip). -/
structure CoverModel where
  numVars : Nat
  constraints : List (String × List Nat)
  objective : List ℚ
deriving DecidableEq, Repr

/-- The model-building part of `solve_set_covering`: variables
`x_0 .. x_{len(trips)-1}`, constraint
`sum(x_i for i, t in enumerate(trips) if d_id in t.shipment_ids) == 1`
for each delivery id, objective `sum(x_i * trips[i].score)`. -/
def build_cover_model (trips : List Trip) (deliveries : List Delivery) : CoverModel :=
  { numVars := trips.length
    constraints := deliveries.map fun d =>
      (d.id, (trips.enum.filter fun p => decide (d.id ∈ p.2.shipment_ids)).map Prod.fst)
    objective := trips.map Trip.score }

/-- One entry of Gurobi's solution pool, as read back by
`solve_set_covering`: the `Xn` value of every variable and the
`PoolObjVal`. -/
structure PoolEntry where
  xn : List ℚ
  obj : ℚ
deriving DecidableEq, Repr, Inhabited

/-- The solution dictionary built by `solve_set_covering` for one pool
entry. -/
structure Solution where
  solution_number : Nat
  obj : ℚ
  selected_trip_indices : List Nat
  selected_trips : List Trip
  total_km : ℚ
  total_weight : ℚ
  total_volume : ℚ
  total_score : ℚ
deriving DecidableEq, Repr

/-- The per-pool-entry extraction loop of `solve_set_covering`: indices
whose variable value exceeds `0.5` are selected, the corresponding trips
are collected and their km/weight/volume/score summed. -/
def extract_solution (trips : List Trip) (s : Nat) (e : PoolEntry) : Solution :=
  let selected_indices := (e.xn.enum.filter fun p => decide (p.2 > 1/2)).map Prod.fst
  let selected_trip_list := selected_indices.map fun i => trips.getD i default
  { solution_number := s
    obj := e.obj
    selected_trip_indices := selected_indices
    selected_trips := selected_trip_list
    total_km := (selected_trip_list.map Trip.total_km).sum
    total_weight := (selected_trip_list.map Trip.total_weight).sum
    total_volume := (selected_trip_list.map Trip.total_volume).sum
    total_score := (selected_trip_list.map Trip.score).sum }

instance : DecidableRel fun a b : Solution => a.obj ≤ b.obj :=
  fun a b => inferInstanceAs (Decidable (a.obj ≤ b.obj))

/-- `solve_set_covering` from `Set_covering.py`, with the external Gurobi
call abstracted as a `solver` oracle that receives the built model and
returns the solution pool.  `SolCount == 0` (empty pool) yields `[]`;
otherwise every pool entry is extracted and the batch is sorted by
ascending objective (Python's stable `sorted`, modelled by the stable
`insertionSort`). -/
def solve_set_covering (trips : List Trip) (deliveries : List Delivery)
    (solver : CoverModel → List PoolEntry) : List Solution :=
  let model := build_cover_model trips deliveries
  let pool := solver model
  if pool.length = 0 then []
  else
    let solutions := pool.enum.map fun p => extract_solution trips p.1 p.2
    List.insertionSort (fun a b => a.obj ≤ b.obj) solutions

/-- The per-instance flow of `main.py`: generate the feasible trips,
then unconditionally hand them (and the deliveries) to
`solve_set_covering`. -/
def process_instance (deliveries : List Delivery) (capacity_kg capacity_m3 : ℚ)
    (dist_matrix : DistMatrix) (solver : CoverModel → List PoolEntry) :
    Except TripGenError (List Trip × List Solution) :=
  match generate_feasible_trips deliveries capacity_kg capacity_m3 dist_matrix [] with
  | .error e => .error e
  | .ok feasible_trips =>
    .ok (feasible_trips, solve_set_covering feasible_trips deliveries solver)

/-- Semantics of a `CoverModel`: number of selected variables among a
constraint's trip indices. -/
def constraint_count (x : Nat → Bool) (idxs : List Nat) : Nat :=
  (idxs.filter x).length

/-- A 0/1 assignment satisfies the model iff every covering constraint
sums to exactly 1. -/
def satisfies_model (mdl : CoverModel) (x : Nat → Bool) : Prop :=
  ∀ c ∈ mdl.constraints, constraint_count x c.2 = 1

instance (mdl : CoverModel) (x : Nat → Bool) : Decidable (satisfies_model mdl x) :=
  List.decidableBAll _ mdl.constraints

/-- Objective value of a 0/1 assignment: sum of the objective
coefficients of the selected variables. -/
def model_obj (mdl : CoverModel) (x : Nat → Bool) : ℚ :=
  (((List.range mdl.numVars).filter x).map fun i => mdl.objective.getD i 0).sum

/-- A list of booleans read as a 0/1 assignment (out-of-range variables
unselected). -/
def assignOf (bs : List Bool) : Nat → Bool := fun i => bs.getD i false

/-- All boolean lists of a given length (used to enumerate the
assignments of a concrete model). -/
def allBoolLists : Nat → List (List Bool)
  | 0 => [[]]
  | n + 1 => (allBoolLists n).flatMap fun l => [true :: l, false :: l]

/-! ### Concrete scenario from the spec (§8, same-location example) -/

/-- Scenario delivery `D0`: same pickup location, ready slot 0,
window end 10. -/
def sD0 : Delivery :=
  ⟨"D0", "Pharma", 100, 1, 0, (5, 10), "GHA1", "Linate", 100, 1, []⟩

/-- Scenario delivery `D1`: ready slot 1. -/
def sD1 : Delivery :=
  ⟨"D1", "Pharma", 100, 1, 1, (5, 10), "GHA1", "Linate", 100, 1, []⟩

/-- Scenario delivery `D2`: ready slot 1. -/
def sD2 : Delivery :=
  ⟨"D2", "Pharma", 100, 1, 1, (5, 10), "GHA1", "Linate", 100, 1, []⟩

/-- The three scenario deliveries. -/
def scenarioDeliveries : List Delivery := [sD0, sD1, sD2]

/-- Scenario distance table: one pickup location and the depot, distance
10 between them, 0 on the diagonal. -/
def scenarioMatrix : DistMatrix :=
  ⟨["Linate", "Mpx"], ["Linate", "Mpx"], fun a b => if a = b then 0 else 10⟩

/-- The seven trips the generator produces on the scenario: three
singletons, three pairs, one triple, in enumeration order. -/
def scenarioTrips : List Trip :=
  [ ⟨"D0", ["D0"], 10, 100, 1, 1⟩,
    ⟨"D1", ["D1"], 10, 100, 1, 1⟩,
    ⟨"D2", ["D2"], 10, 100, 1, 1⟩,
    ⟨"D0", ["D0", "D1"], 10, 200, 2, 1/2⟩,
    ⟨"D0", ["D0", "D2"], 10, 200, 2, 1/2⟩,
    ⟨"D1", ["D1", "D2"], 10, 200, 2, 1/2⟩,
    ⟨"D0", ["D0", "D1", "D2"], 10, 300, 3, 1/3⟩ ]

lemma scenario_eval :
    generate_feasible_trips scenarioDeliveries 4000 15 scenarioMatrix [] = .ok scenarioTrips := by
  norm_num [generate_feasible_trips, allCombos, MAX_PICKUPS, List.range_succ, combinations,
    processCombos, processCombo, check_capacity, check_time_window, max_wait_time,
    compute_trip_distance, direct_distances, df_at, trip_of, scenarioDeliveries, scenarioMatrix,
    scenarioTrips, sD0, sD1, sD2, MAX_WAIT_SLOT, MAX_DISTANCE_INCREASE,
    List.insertionSort, List.orderedInsert, max_def, min_def]
  simp only [String.reduceEq, reduceIte]
  norm_num

/-! ### Helper lemmas about the generation loop -/

lemma processCombos_sound (capacity_kg capacity_m3 : ℚ) (m : DistMatrix) :
    ∀ (cs : List (List Delivery)) (ts : List Trip),
      processCombos capacity_kg capacity_m3 m cs = .ok ts →
      ∀ t ∈ ts, ∃ c ∈ cs, processCombo capacity_kg capacity_m3 m c = .ok (some t) := by
  intro cs
  induction cs with
  | nil =>
    intro ts h t ht
    simp [processCombos] at h
    subst h
    simp at ht
  | cons c cs ih =>
    intro ts h t ht
    rw [processCombos] at h
    cases hc : processCombo capacity_kg capacity_m3 m c with
    | error e => rw [hc] at h; exact absurd h (by simp)
    | ok r =>
      rw [hc] at h
      cases r with
      | none =>
        obtain ⟨c', hc', hp⟩ := ih ts h t ht
        exact ⟨c', List.mem_cons_of_mem _ hc', hp⟩
      | some t' =>
        cases hrest : processCombos capacity_kg capacity_m3 m cs with
        | error e => rw [hrest] at h; exact absurd h (by simp)
        | ok ts' =>
          rw [hrest] at h
          have hts : ts = t' :: ts' := by
            have := h
            simp at this
            exact this.symm
          subst hts
          rcases List.mem_cons.mp ht with h1 | h2
          · exact ⟨c, List.mem_cons_self _ _, by rw [hc, h1]⟩
          · obtain ⟨c', hc', hp⟩ := ih ts' hrest t h2
            exact ⟨c', List.mem_cons_of_mem _ hc', hp⟩

lemma processCombos_complete (capacity_kg capacity_m3 : ℚ) (m : DistMatrix) :
    ∀ (cs : List (List Delivery)) (ts : List Trip),
      processCombos capacity_kg capacity_m3 m cs = .ok ts →
      ∀ c ∈ cs, ∃ r, processCombo capacity_kg capacity_m3 m c = .ok r ∧
        ∀ t, r = some t → t ∈ ts := by
  intro cs
  induction cs with
  | nil => intro ts _ c hc; simp at hc
  | cons c0 cs ih =>
    intro ts h c hc
    rw [processCombos] at h
    cases hc0 : processCombo capacity_kg capacity_m3 m c0 with
    | error e => rw [hc0] at h; exact absurd h (by simp)
    | ok r0 =>
      rw [hc0] at h
      rcases List.mem_cons.mp hc with rfl | hmem
      · cases r0 with
        | none => exact ⟨none, hc0, by intro t ht; cases ht⟩
        | some t0 =>
          cases hrest : processCombos capacity_kg capacity_m3 m cs with
          | error e => rw [hrest] at h; exact absurd h (by simp)
          | ok ts' =>
            rw [hrest] at h
            have hts : ts = t0 :: ts' := by simpa using h.symm
            subst hts
            exact ⟨some t0, hc0, by intro t ht; injection ht with ht; subst ht; simp⟩
      · cases r0 with
        | none =>
          obtain ⟨r, hr, hin⟩ := ih ts h c hmem
          exact ⟨r, hr, hin⟩
        | some t0 =>
          cases hrest : processCombos capacity_kg capacity_m3 m cs with
          | error e => rw [hrest] at h; exact absurd h (by simp)
          | ok ts' =>
            rw [hrest] at h
            have hts : ts = t0 :: ts' := by simpa using h.symm
            subst hts
            obtain ⟨r, hr, hin⟩ := ih ts' hrest c hmem
            exact ⟨r, hr, fun t ht => List.mem_cons_of_mem _ (hin t ht)⟩

lemma processCombo_ok_some (capacity_kg capacity_m3 : ℚ) (m : DistMatrix)
    (combo : List Delivery) (t : Trip)
    (h : processCombo capacity_kg capacity_m3 m combo = .ok (some t)) :
    check_capacity combo capacity_kg capacity_m3 = true ∧
    check_time_window combo = true ∧
    max_wait_time combo ≤ MAX_WAIT_SLOT ∧
    ∃ td dd,
      compute_trip_distance (combo.map Delivery.pickup_location ++ ["Mpx"]) m = some td ∧
      direct_distances combo m = some dd ∧
      td ≤ dd * (1 + MAX_DISTANCE_INCREASE) ∧
      t = trip_of combo td (td / dd) := by
  unfold processCombo at h
  by_cases h1 : check_capacity combo capacity_kg capacity_m3 = false
  · rw [if_pos h1] at h; exact absurd h (by simp)
  rw [if_neg h1] at h
  by_cases h2 : check_time_window combo = false
  · rw [if_pos h2] at h; exact absurd h (by simp)
  rw [if_neg h2] at h
  by_cases h3 : max_wait_time combo > MAX_WAIT_SLOT
  · rw [if_pos h3] at h; exact absurd h (by simp)
  rw [if_neg h3] at h
  cases htd : compute_trip_distance (combo.map Delivery.pickup_location ++ ["Mpx"]) m with
  | none => rw [htd] at h; exact absurd h (by simp)
  | some td =>
    rw [htd] at h
    simp only [] at h
    cases hdd : direct_distances combo m with
    | none => rw [hdd] at h; exact absurd h (by simp)
    | some dd =>
      rw [hdd] at h
      simp only [] at h
      by_cases h4 : td > dd * (1 + MAX_DISTANCE_INCREASE)
      · rw [if_pos h4] at h; exact absurd h (by simp)
      rw [if_neg h4] at h
      refine ⟨by simpa using h1, by simpa using h2, le_of_not_lt h3, td, dd, rfl, rfl,
        le_of_not_lt h4, ?_⟩
      have := h
      simp at this
      exact this.symm

lemma combinations_one (ds : List Delivery) :
    combinations 1 ds = ds.map fun d => [d] := by
  induction ds with
  | nil => simp [combinations]
  | cons d ds ih => simp [combinations, ih]

lemma singleton_mem_allCombos (d : Delivery) (ds : List Delivery) (hd : d ∈ ds) :
    [d] ∈ allCombos ds := by
  have h1 : [d] ∈ combinations 1 ds := by
    rw [combinations_one]
    exact List.mem_map.mpr ⟨d, hd, rfl⟩
  have h0 : (0 : Nat) ∈ List.range MAX_PICKUPS := by simp [MAX_PICKUPS]
  exact List.mem_flatMap.mpr ⟨0, h0, h1⟩

/-- C1.  Feasibility soundness: whenever `generate_feasible_trips`
returns a trip list (its only exception is the `KeyError` of a missing
location, in which case no list exists to speak about), every trip in
it comes from a combination of at most `MAX_PICKUPS` input deliveries
that passes all four feasibility checks — capacity (bundle sums within
`capacity_kg` / `capacity_m3` and each member within its own available
weight/volume), time window (latest `goods_ready` ≤ earliest window
end), wait time (largest gap between consecutive sorted ready times ≤
`MAX_WAIT_SLOT`), and detour (route distance through the members'
pickups ending at the depot ≤ sum of the members' direct
pickup-to-depot distances times `1 + MAX_DISTANCE_INCREASE`) — and the
trip's source, shipment ids, km, weight and volume are exactly the ones
computed from that combination, its score being the quotient of route
distance by direct-distance sum whenever that sum is nonzero (a zero
sum makes the source's float score `nan`, which ℚ cannot express, so
nothing is asserted about the score then). -/
theorem feasibility_soundness (ds : List Delivery) (capacity_kg capacity_m3 : ℚ)
    (m : DistMatrix) (incompat_set : List (String × String)) (trips : List Trip)
    (h : generate_feasible_trips ds capacity_kg capacity_m3 m incompat_set = .ok trips) :
    ∀ t ∈ trips, ∃ combo ∈ allCombos ds,
      check_capacity combo capacity_kg capacity_m3 = true ∧
      check_time_window combo = true ∧
      max_wait_time combo ≤ MAX_WAIT_SLOT ∧
      ∃ td dd,
        compute_trip_distance (combo.map Delivery.pickup_location ++ ["Mpx"]) m = some td ∧
        direct_distances combo m = some dd ∧
        td ≤ dd * (1 + MAX_DISTANCE_INCREASE) ∧
        t.source = combo.headI.id ∧
        t.shipment_ids = combo.map Delivery.id ∧
        t.total_km = td ∧
        t.total_weight = (combo.map Delivery.weight_kg).sum ∧
        t.total_volume = (combo.map Delivery.volume_m3).sum ∧
        (dd ≠ 0 → t.score = td / dd) := by
  intro t ht
  obtain ⟨combo, hcombo, hp⟩ :=
    processCombos_sound capacity_kg capacity_m3 m (allCombos ds) trips h t ht
  obtain ⟨hc, hw, hmw, td, dd, htd, hdd, hdet, hteq⟩ :=
    processCombo_ok_some capacity_kg capacity_m3 m combo t hp
  subst hteq
  exact ⟨combo, hcombo, hc, hw, hmw, td, dd, htd, hdd, hdet, rfl, rfl, rfl, rfl, rfl,
    fun _ => rfl⟩

/-- Witness for C1: the first singleton trip of the same-location
scenario is sound. -/
theorem feasibility_soundness_witness :
    ∃ combo ∈ allCombos scenarioDeliveries,
      check_capacity combo 4000 15 = true ∧
      check_time_window combo = true ∧
      max_wait_time combo ≤ MAX_WAIT_SLOT ∧
      ∃ td dd,
        compute_trip_distance (combo.map Delivery.pickup_location ++ ["Mpx"]) scenarioMatrix =
          some td ∧
        direct_distances combo scenarioMatrix = some dd ∧
        td ≤ dd * (1 + MAX_DISTANCE_INCREASE) ∧
        (⟨"D0", ["D0"], 10, 100, 1, 1⟩ : Trip).source = combo.headI.id ∧
        (⟨"D0", ["D0"], 10, 100, 1, 1⟩ : Trip).shipment_ids = combo.map Delivery.id ∧
        (⟨"D0", ["D0"], 10, 100, 1, 1⟩ : Trip).total_km = td ∧
        (⟨"D0", ["D0"], 10, 100, 1, 1⟩ : Trip).total_weight =
          (combo.map Delivery.weight_kg).sum ∧
        (⟨"D0", ["D0"], 10, 100, 1, 1⟩ : Trip).total_volume =
          (combo.map Delivery.volume_m3).sum ∧
        (dd ≠ 0 → (⟨"D0", ["D0"], 10, 100, 1, 1⟩ : Trip).score = td / dd) :=
  feasibility_soundness scenarioDeliveries 4000 15 scenarioMatrix [] scenarioTrips
    scenario_eval ⟨"D0", ["D0"], 10, 100, 1, 1⟩ (by simp [scenarioTrips])

lemma covering_indices_mem (trips : List Trip) (s : String) (j : Nat) :
    (j ∈ (trips.enum.filter fun p => decide (s ∈ p.2.shipment_ids)).map Prod.fst) ↔
      j < trips.length ∧ s ∈ (trips.getD j default).shipment_ids := by
  constructor
  · intro hj
    obtain ⟨⟨i, t⟩, hmem, rfl⟩ := List.mem_map.mp hj
    obtain ⟨hin, hdec⟩ := List.mem_filter.mp hmem
    have hget := List.mem_enum_iff_getElem?.mp hin
    simp only at hget hdec ⊢
    have hlt : i < trips.length := by
      by_contra hge
      rw [List.getElem?_eq_none (le_of_not_lt hge)] at hget
      cases hget
    refine ⟨hlt, ?_⟩
    rw [List.getElem?_eq_getElem hlt] at hget
    have ht : t = trips[i] := by injection hget with hget; exact hget.symm
    subst ht
    rw [List.getD_eq_getElem _ _ hlt]
    simpa using hdec
  · rintro ⟨hlt, hs⟩
    refine List.mem_map.mpr ⟨(j, trips[j]), List.mem_filter.mpr ⟨?_, ?_⟩, rfl⟩
    · rw [List.mem_enum_iff_getElem?]
      simp [List.getElem?_eq_getElem hlt]
    · rw [List.getD_eq_getElem _ _ hlt] at hs
      simpa using hs

/-- C2.  Cover-model structure: the model built by `solve_set_covering`
has one binary variable per trip, its objective coefficient vector
assigns each trip's score to that trip's variable (so the minimised
objective is the sum of variable times score over all trips), its
constraint list has exactly one equality constraint per delivery (the
constraint keys are exactly the delivery ids, in order), and the
constraint for a delivery sums, over exactly the indices of the trips
whose `shipment_ids` contain that delivery's id, to 1. -/
theorem cover_model_structure (trips : List Trip) (deliveries : List Delivery)
    (d : Delivery) (i : Nat) (hd : d ∈ deliveries) (hi : i < trips.length) :
    (build_cover_model trips deliveries).numVars = trips.length ∧
    (build_cover_model trips deliveries).objective.getD i 0 = (trips.getD i default).score ∧
    (build_cover_model trips deliveries).constraints.map Prod.fst =
      deliveries.map Delivery.id ∧
    ∃ c ∈ (build_cover_model trips deliveries).constraints,
      c.1 = d.id ∧
      ∀ j : Nat, j ∈ c.2 ↔ j < trips.length ∧ d.id ∈ (trips.getD j default).shipment_ids := by
  refine ⟨rfl, ?_, ?_, ?_⟩
  · have h1 : (build_cover_model trips deliveries).objective = trips.map Trip.score := rfl
    rw [h1, List.getD_eq_getElem _ _ (by simpa using hi), List.getD_eq_getElem _ _ hi]
    simp
  · have h1 : (build_cover_model trips deliveries).constraints = deliveries.map fun d =>
        (d.id, (trips.enum.filter fun p => decide (d.id ∈ p.2.shipment_ids)).map Prod.fst) := rfl
    rw [h1, List.map_map]
    rfl
  · refine ⟨(d.id, (trips.enum.filter fun p => decide (d.id ∈ p.2.shipment_ids)).map Prod.fst),
      ?_, rfl, fun j => covering_indices_mem trips d.id j⟩
    exact List.mem_map.mpr ⟨d, hd, rfl⟩

/-- Witness for C2, at the same-location scenario model. -/
theorem cover_model_structure_witness :
    (build_cover_model scenarioTrips scenarioDeliveries).numVars = scenarioTrips.length ∧
    (build_cover_model scenarioTrips scenarioDeliveries).objective.getD 6 0 =
      (scenarioTrips.getD 6 default).score ∧
    (build_cover_model scenarioTrips scenarioDeliveries).constraints.map Prod.fst =
      scenarioDeliveries.map Delivery.id ∧
    ∃ c ∈ (build_cover_model scenarioTrips scenarioDeliveries).constraints,
      c.1 = sD0.id ∧
      ∀ j : Nat, j ∈ c.2 ↔
        j < scenarioTrips.length ∧ sD0.id ∈ (scenarioTrips.getD j default).shipment_ids :=
  cover_model_structure scenarioTrips scenarioDeliveries sD0 6
    (by simp [scenarioDeliveries]) (by simp [scenarioTrips])

instance : Inhabited Solution := ⟨⟨0, 0, [], [], 0, 0, 0, 0⟩⟩

instance : IsTotal Solution fun a b => a.obj ≤ b.obj := ⟨fun a b => le_total a.obj b.obj⟩

instance : IsTrans Solution fun a b => a.obj ≤ b.obj := ⟨fun _ _ _ hab hbc => le_trans hab hbc⟩

/-- C3.  Monotonic pool ordering: whatever pool the solver delivers, the
solution batch returned by `solve_set_covering` is sorted ascending by
objective value: `solutions[i].obj ≤ solutions[i+1].obj` for every
in-range index `i`. -/
theorem pool_ordering (trips : List Trip) (deliveries : List Delivery)
    (solver : CoverModel → List PoolEntry) (i : Nat)
    (h : i + 1 < (solve_set_covering trips deliveries solver).length) :
    ((solve_set_covering trips deliveries solver).getD i default).obj ≤
      ((solve_set_covering trips deliveries solver).getD (i + 1) default).obj := by
  simp only [solve_set_covering] at h ⊢
  by_cases hp : (solver (build_cover_model trips deliveries)).length = 0
  · rw [if_pos hp] at h; simp at h
  · rw [if_neg hp] at h ⊢
    have hsorted : List.Pairwise (fun a b : Solution => a.obj ≤ b.obj)
        (List.insertionSort (fun a b => a.obj ≤ b.obj)
          ((solver (build_cover_model trips deliveries)).enum.map
            fun p => extract_solution trips p.1 p.2)) :=
      List.sorted_insertionSort _ _
    have h1 : i < (List.insertionSort (fun a b => a.obj ≤ b.obj)
        ((solver (build_cover_model trips deliveries)).enum.map
          fun p => extract_solution trips p.1 p.2)).length :=
      lt_trans (Nat.lt_succ_self i) h
    rw [List.getD_eq_getElem _ _ h1, List.getD_eq_getElem _ _ h]
    have hrel := List.pairwise_iff_get.mp hsorted ⟨i, h1⟩ ⟨i + 1, h⟩ (by simp [Fin.lt_def])
    simpa using hrel

/-- Witness for C3: a two-entry pool delivered out of order is returned
sorted. -/
theorem pool_ordering_witness :
    0 + 1 < (solve_set_covering [] [] fun _ => [⟨[], 3⟩, ⟨[], 1⟩]).length ∧
    (((solve_set_covering [] [] fun _ => [⟨[], 3⟩, ⟨[], 1⟩]).getD 0 default).obj ≤
      ((solve_set_covering [] [] fun _ => [⟨[], 3⟩, ⟨[], 1⟩]).getD 1 default).obj) := by
  have hlen : 0 + 1 < (solve_set_covering [] [] fun _ => [⟨[], 3⟩, ⟨[], 1⟩]).length := by
    norm_num [solve_set_covering, extract_solution, List.insertionSort, List.orderedInsert]
  exact ⟨hlen, pool_ordering [] [] (fun _ => [⟨[], 3⟩, ⟨[], 1⟩]) 0 hlen⟩

lemma extract_selected_mem (trips : List Trip) (s : Nat) (e : PoolEntry) (i : Nat) :
    i ∈ (extract_solution trips s e).selected_trip_indices ↔
      i < e.xn.length ∧ 1/2 < e.xn.getD i 0 := by
  show (i ∈ (e.xn.enum.filter fun p => decide (p.2 > 1/2)).map Prod.fst) ↔ _
  constructor
  · intro hj
    obtain ⟨⟨k, v⟩, hmem, rfl⟩ := List.mem_map.mp hj
    obtain ⟨hin, hdec⟩ := List.mem_filter.mp hmem
    have hget := List.mem_enum_iff_getElem?.mp hin
    simp only at hget hdec ⊢
    have hlt : k < e.xn.length := by
      by_contra hge
      rw [List.getElem?_eq_none (le_of_not_lt hge)] at hget
      cases hget
    refine ⟨hlt, ?_⟩
    rw [List.getElem?_eq_getElem hlt] at hget
    have hv : v = e.xn[k] := by injection hget with hg; exact hg.symm
    subst hv
    rw [List.getD_eq_getElem _ _ hlt]
    simpa using hdec
  · rintro ⟨hlt, hs⟩
    refine List.mem_map.mpr ⟨(i, e.xn[i]), List.mem_filter.mpr ⟨?_, ?_⟩, rfl⟩
    · rw [List.mem_enum_iff_getElem?]
      simp [List.getElem?_eq_getElem hlt]
    · rw [List.getD_eq_getElem _ _ hlt] at hs
      simpa using hs

/-- C7.  Solution extraction: every solution returned by
`solve_set_covering` is the extraction of the pool entry with its
`solution_number`; its selected trip indices are exactly the variables
whose pool value exceeds `0.5`; its selected trips are the trips at
those indices; and its `total_km`, `total_weight`, `total_volume`,
aggregated score, and objective are the corresponding sums over (resp.
value for) the selected trips / pool entry. -/
theorem solution_extraction (trips : List Trip) (deliveries : List Delivery)
    (solver : CoverModel → List PoolEntry) (sol : Solution)
    (h : sol ∈ solve_set_covering trips deliveries solver) :
    sol.solution_number < (solver (build_cover_model trips deliveries)).length ∧
    sol = extract_solution trips sol.solution_number
      ((solver (build_cover_model trips deliveries)).getD sol.solution_number default) ∧
    (∀ i : Nat, i ∈ sol.selected_trip_indices ↔
      i < ((solver (build_cover_model trips deliveries)).getD
        sol.solution_number default).xn.length ∧
      1/2 < ((solver (build_cover_model trips deliveries)).getD
        sol.solution_number default).xn.getD i 0) ∧
    sol.selected_trips = sol.selected_trip_indices.map (fun i => trips.getD i default) ∧
    sol.obj = ((solver (build_cover_model trips deliveries)).getD
      sol.solution_number default).obj ∧
    sol.total_km = (sol.selected_trips.map Trip.total_km).sum ∧
    sol.total_weight = (sol.selected_trips.map Trip.total_weight).sum ∧
    sol.total_volume = (sol.selected_trips.map Trip.total_volume).sum ∧
    sol.total_score = (sol.selected_trips.map Trip.score).sum := by
  simp only [solve_set_covering] at h
  by_cases hp : (solver (build_cover_model trips deliveries)).length = 0
  · rw [if_pos hp] at h; simp at h
  · rw [if_neg hp] at h
    have hmem := (List.perm_insertionSort (fun a b : Solution => a.obj ≤ b.obj) _).mem_iff.mp h
    obtain ⟨⟨s, e⟩, hin, rfl⟩ := List.mem_map.mp hmem
    have hget := List.mem_enum_iff_getElem?.mp hin
    simp only at hget ⊢
    have hs : s < (solver (build_cover_model trips deliveries)).length := by
      by_contra hge
      rw [List.getElem?_eq_none (le_of_not_lt hge)] at hget
      cases hget
    rw [List.getElem?_eq_getElem hs] at hget
    have he : e = (solver (build_cover_model trips deliveries))[s] := by
      injection hget with hg; exact hg.symm
    have hnum : (extract_solution trips s e).solution_number = s := rfl
    rw [hnum]
    have hgd : (solver (build_cover_model trips deliveries)).getD s default = e := by
      rw [List.getD_eq_getElem _ _ hs, ← he]
    rw [hgd]
    exact ⟨hs, rfl, fun i => extract_selected_mem trips s e i, rfl, rfl, rfl, rfl, rfl, rfl⟩

/-- Witness for C7: a one-trip, one-entry pool. -/
theorem solution_extraction_witness :
    ((⟨0, 7, [0], [⟨"D0", ["D0"], 10, 100, 1, 1⟩], 10, 100, 1, 1⟩ : Solution) :
        Solution).solution_number <
      ((fun _ => [⟨[1], 7⟩]) (build_cover_model [⟨"D0", ["D0"], 10, 100, 1, 1⟩] []) :
        List PoolEntry).length ∧
    (⟨0, 7, [0], [⟨"D0", ["D0"], 10, 100, 1, 1⟩], 10, 100, 1, 1⟩ : Solution) =
      extract_solution [⟨"D0", ["D0"], 10, 100, 1, 1⟩]
        (⟨0, 7, [0], [⟨"D0", ["D0"], 10, 100, 1, 1⟩], 10, 100, 1, 1⟩ : Solution).solution_number
        (((fun _ => [⟨[1], 7⟩]) (build_cover_model [⟨"D0", ["D0"], 10, 100, 1, 1⟩] []) :
          List PoolEntry).getD
          (⟨0, 7, [0], [⟨"D0", ["D0"], 10, 100, 1, 1⟩], 10, 100, 1, 1⟩ : Solution).solution_number
          default) ∧
    (∀ i : Nat,
      i ∈ (⟨0, 7, [0], [⟨"D0", ["D0"], 10, 100, 1, 1⟩], 10, 100, 1, 1⟩ :
          Solution).selected_trip_indices ↔
      i < (((fun _ => [⟨[1], 7⟩]) (build_cover_model [⟨"D0", ["D0"], 10, 100, 1, 1⟩] []) :
          List PoolEntry).getD
          (⟨0, 7, [0], [⟨"D0", ["D0"], 10, 100, 1, 1⟩], 10, 100, 1, 1⟩ :
            Solution).solution_number default).xn.length ∧
      1/2 < (((fun _ => [⟨[1], 7⟩]) (build_cover_model [⟨"D0", ["D0"], 10, 100, 1, 1⟩] []) :
          List PoolEntry).getD
          (⟨0, 7, [0], [⟨"D0", ["D0"], 10, 100, 1, 1⟩], 10, 100, 1, 1⟩ :
            Solution).solution_number default).xn.getD i 0) ∧
    (⟨0, 7, [0], [⟨"D0", ["D0"], 10, 100, 1, 1⟩], 10, 100, 1, 1⟩ :
        Solution).selected_trips =
      (⟨0, 7, [0], [⟨"D0", ["D0"], 10, 100, 1, 1⟩], 10, 100, 1, 1⟩ :
        Solution).selected_trip_indices.map
        (fun i => ([⟨"D0", ["D0"], 10, 100, 1, 1⟩] : List Trip).getD i default) ∧
    (⟨0, 7, [0], [⟨"D0", ["D0"], 10, 100, 1, 1⟩], 10, 100, 1, 1⟩ : Solution).obj =
      (((fun _ => [⟨[1], 7⟩]) (build_cover_model [⟨"D0", ["D0"], 10, 100, 1, 1⟩] []) :
        List PoolEntry).getD
        (⟨0, 7, [0], [⟨"D0", ["D0"], 10, 100, 1, 1⟩], 10, 100, 1, 1⟩ :
          Solution).solution_number default).obj ∧
    (⟨0, 7, [0], [⟨"D0", ["D0"], 10, 100, 1, 1⟩], 10, 100, 1, 1⟩ : Solution).total_km =
      ((⟨0, 7, [0], [⟨"D0", ["D0"], 10, 100, 1, 1⟩], 10, 100, 1, 1⟩ :
        Solution).selected_trips.map Trip.total_km).sum ∧
    (⟨0, 7, [0], [⟨"D0", ["D0"], 10, 100, 1, 1⟩], 10, 100, 1, 1⟩ : Solution).total_weight =
      ((⟨0, 7, [0], [⟨"D0", ["D0"], 10, 100, 1, 1⟩], 10, 100, 1, 1⟩ :
        Solution).selected_trips.map Trip.total_weight).sum ∧
    (⟨0, 7, [0], [⟨"D0", ["D0"], 10, 100, 1, 1⟩], 10, 100, 1, 1⟩ : Solution).total_volume =
      ((⟨0, 7, [0], [⟨"D0", ["D0"], 10, 100, 1, 1⟩], 10, 100, 1, 1⟩ :
        Solution).selected_trips.map Trip.total_volume).sum ∧
    (⟨0, 7, [0], [⟨"D0", ["D0"], 10, 100, 1, 1⟩], 10, 100, 1, 1⟩ : Solution).total_score =
      ((⟨0, 7, [0], [⟨"D0", ["D0"], 10, 100, 1, 1⟩], 10, 100, 1, 1⟩ :
        Solution).selected_trips.map Trip.score).sum :=
  solution_extraction [⟨"D0", ["D0"], 10, 100, 1, 1⟩] [] (fun _ => [⟨[1], 7⟩])
    ⟨0, 7, [0], [⟨"D0", ["D0"], 10, 100, 1, 1⟩], 10, 100, 1, 1⟩
    (by norm_num [solve_set_covering, extract_solution, List.insertionSort,
      List.orderedInsert])

lemma compute_none_of_missing (m : DistMatrix) :
    ∀ (locs : List String) (x : String), x ∈ locs → x ∉ m.index →
      compute_trip_distance (locs ++ ["Mpx"]) m = none := by
  intro locs
  induction locs with
  | nil => intro x hx; simp at hx
  | cons l rest ih =>
    intro x hx hxm
    rcases List.mem_cons.mp hx with rfl | hmem
    · cases rest with
      | nil =>
        have : df_at m x "Mpx" = none := by
          unfold df_at
          rw [if_neg]
          intro hc
          exact hxm hc.1
        simp [compute_trip_distance, this]
      | cons l2 rest2 =>
        have : df_at m x l2 = none := by
          unfold df_at
          rw [if_neg]
          intro hc
          exact hxm hc.1
        simp [compute_trip_distance, this]
    · cases rest with
      | nil => simp at hmem
      | cons l2 rest2 =>
        have hrec := ih x hmem hxm
        rw [List.cons_append]
        rw [show ((l2 :: rest2) ++ ["Mpx"]) = l2 :: (rest2 ++ ["Mpx"]) from rfl] at hrec ⊢
        unfold compute_trip_distance
        rw [hrec]
        cases df_at m l l2 <;> rfl

/-- C8.  UnknownLocation: a distance lookup on a pair of names of which
either is absent from the table fails (models the pandas `KeyError`,
i.e. it does not silently return a zero distance), and consequently the
trip-distance computation of a combination containing a delivery whose
pickup location is absent from the table fails as a whole. -/
theorem unknown_location (m : DistMatrix) (a b : String) (combo : List Delivery)
    (d : Delivery) (hab : a ∉ m.index ∨ b ∉ m.cols) (hd : d ∈ combo)
    (hp : d.pickup_location ∉ m.index) :
    df_at m a b = none ∧
    compute_trip_distance (combo.map Delivery.pickup_location ++ ["Mpx"]) m = none := by
  constructor
  · unfold df_at
    rw [if_neg]
    intro hc
    rcases hab with h1 | h2
    · exact h1 hc.1
    · exact h2 hc.2
  · exact compute_none_of_missing m (combo.map Delivery.pickup_location) d.pickup_location
      (List.mem_map.mpr ⟨d, hd, rfl⟩) hp

/-- Witness for C8: a delivery picking up at a location missing from a
one-location table. -/
theorem unknown_location_witness :
    df_at ⟨["A"], ["A"], fun _ _ => 0⟩ "B" "A" = none ∧
    compute_trip_distance
      (([⟨"DX", "Pharma", 1, 1, 0, (0, 10), "GHA1", "B", 1, 1, []⟩] : List Delivery).map
        Delivery.pickup_location ++ ["Mpx"]) ⟨["A"], ["A"], fun _ _ => 0⟩ = none :=
  unknown_location ⟨["A"], ["A"], fun _ _ => 0⟩ "B" "A"
    [⟨"DX", "Pharma", 1, 1, 0, (0, 10), "GHA1", "B", 1, 1, []⟩]
    ⟨"DX", "Pharma", 1, 1, 0, (0, 10), "GHA1", "B", 1, 1, []⟩
    (Or.inl (by simp)) (by simp) (by simp)

lemma unsat_of_uncovered (trips : List Trip) (ds : List Delivery) (d : Delivery)
    (hd : d ∈ ds) (hu : ∀ t ∈ trips, d.id ∉ t.shipment_ids) :
    ∀ x, ¬ satisfies_model (build_cover_model trips ds) x := by
  intro x hx
  have hc : (d.id, (trips.enum.filter fun p => decide (d.id ∈ p.2.shipment_ids)).map Prod.fst)
      ∈ (build_cover_model trips ds).constraints := List.mem_map.mpr ⟨d, hd, rfl⟩
  have hcount := hx _ hc
  have hnil : (trips.enum.filter fun p => decide (d.id ∈ p.2.shipment_ids)) = [] := by
    rw [List.filter_eq_nil_iff]
    rintro ⟨i, t⟩ hp
    have hget := List.mem_enum_iff_getElem?.mp hp
    have ht : t ∈ trips := List.getElem?_mem hget
    simpa using hu t ht
  rw [hnil] at hcount
  simp [constraint_count] at hcount

/-- A trip covering only delivery id `D0`, used in the uncoverable-
delivery instance. -/
def tripD0 : Trip := ⟨"T0", ["D0"], 10, 100, 1, 1⟩

/-- C4 counterexample.  With deliveries `D0, D1` and a single trip
covering only `D0`, delivery `D1` is uncoverable, yet
`solve_set_covering` does not fast-fail: its result still depends on the
solver oracle's answer, i.e. the model is built and submitted to the
solver rather than flagged beforehand. -/
theorem uncoverable_no_fastfail_cex :
    (∀ t ∈ [tripD0], "D1" ∉ t.shipment_ids) ∧
    solve_set_covering [tripD0] [sD0, sD1] (fun _ => [⟨[1], 1⟩]) ≠
      solve_set_covering [tripD0] [sD0, sD1] (fun _ => []) := by
  constructor
  · decide
  · have hR : solve_set_covering [tripD0] [sD0, sD1] (fun _ => []) = [] := by
      simp [solve_set_covering]
    have hL : (solve_set_covering [tripD0] [sD0, sD1] (fun _ => [⟨[1], 1⟩])).length = 1 := by
      norm_num [solve_set_covering, extract_solution, List.insertionSort, List.orderedInsert]
    intro heq
    rw [heq, hR] at hL
    simp at hL

/-- C4 (amended).  The code performs no uncoverable-delivery fast-fail;
instead, when a delivery id appears in no trip, the built model's
constraint for that id has empty support, so no 0/1 assignment satisfies
the model, and when the solver accordingly returns an empty pool
`solve_set_covering` returns the empty solution list (indistinguishable
from any other solver failure). -/
theorem uncoverable_delivery_amended (trips : List Trip) (ds : List Delivery) (d : Delivery)
    (hd : d ∈ ds) (hu : ∀ t ∈ trips, d.id ∉ t.shipment_ids) :
    (∀ x, ¬ satisfies_model (build_cover_model trips ds) x) ∧
    solve_set_covering trips ds (fun _ => []) = [] :=
  ⟨unsat_of_uncovered trips ds d hd hu, by simp [solve_set_covering]⟩

/-- Witness for C4 (amended), on the `D0, D1`-with-one-trip instance. -/
theorem uncoverable_delivery_amended_witness :
    (∀ x, ¬ satisfies_model (build_cover_model [tripD0] [sD0, sD1]) x) ∧
    solve_set_covering [tripD0] [sD0, sD1] (fun _ => []) = [] :=
  uncoverable_delivery_amended [tripD0] [sD0, sD1] sD1 (by simp) (by decide)

/-- A delivery heavier than the vehicle capacity: trip enumeration
produces zero candidates for it. -/
def dHeavy : Delivery := ⟨"D0", "Pharma", 5000, 1, 0, (5, 10), "GHA1", "Linate", 5000, 1, []⟩

lemma heavy_eval : generate_feasible_trips [dHeavy] 4000 15 scenarioMatrix [] = .ok [] := by
  norm_num [generate_feasible_trips, allCombos, MAX_PICKUPS, List.range_succ, combinations,
    processCombos, processCombo, check_capacity, dHeavy]

/-- C5 counterexample.  On an instance whose trip enumeration yields
zero candidate trips, the `main.py` flow does not report the condition
or skip the solve: it still invokes the solver on the empty-variable
model (the result depends on the solver oracle's answer). -/
theorem no_feasible_trips_cex :
    generate_feasible_trips [dHeavy] 4000 15 scenarioMatrix [] = .ok [] ∧
    process_instance [dHeavy] 4000 15 scenarioMatrix (fun _ => [⟨[], 1⟩]) ≠
      process_instance [dHeavy] 4000 15 scenarioMatrix (fun _ => []) := by
  refine ⟨heavy_eval, ?_⟩
  have hA : process_instance [dHeavy] 4000 15 scenarioMatrix (fun _ => []) = .ok ([], []) := by
    simp [process_instance, heavy_eval, solve_set_covering]
  have hB : process_instance [dHeavy] 4000 15 scenarioMatrix (fun _ => [⟨[], 1⟩]) =
      .ok ([], [⟨0, 1, [], [], 0, 0, 0, 0⟩]) := by
    simp [process_instance, heavy_eval, solve_set_covering, extract_solution,
      List.insertionSort, List.orderedInsert]
  rw [hA, hB]
  simp

/-- C5 (amended).  When enumeration yields zero trips the code still
builds the model and calls the solver; with any delivery present the
zero-variable model is unsatisfiable, and with the solver accordingly
returning an empty pool the caller receives the same empty solution list
as for an infeasible cover (the two conditions are not distinguished). -/
theorem no_feasible_trips_amended (ds : List Delivery) (capacity_kg capacity_m3 : ℚ)
    (m : DistMatrix)
    (hgen : generate_feasible_trips ds capacity_kg capacity_m3 m [] = .ok [])
    (hne : ds ≠ []) :
    (∀ x, ¬ satisfies_model (build_cover_model [] ds) x) ∧
    process_instance ds capacity_kg capacity_m3 m (fun _ => []) = .ok ([], []) := by
  obtain ⟨d, rest, rfl⟩ := List.exists_cons_of_ne_nil hne
  refine ⟨unsat_of_uncovered [] _ d (List.mem_cons_self _ _) (by intro t ht; simp at ht), ?_⟩
  simp [process_instance, hgen, solve_set_covering]

/-- Witness for C5 (amended), on the overweight-delivery instance. -/
theorem no_feasible_trips_amended_witness :
    (∀ x, ¬ satisfies_model (build_cover_model [] [dHeavy]) x) ∧
    process_instance [dHeavy] 4000 15 scenarioMatrix (fun _ => []) = .ok ([], []) :=
  no_feasible_trips_amended [dHeavy] 4000 15 scenarioMatrix heavy_eval (by simp)

/-- A delivery picking up at the depot itself: its direct pickup-to-
depot distance is 0. -/
def dMpx : Delivery := ⟨"DM", "Pharma", 100, 1, 0, (5, 10), "GHA1", "Mpx", 100, 1, []⟩

lemma depot_eval :
    generate_feasible_trips [dMpx] 4000 15 scenarioMatrix [] =
      .ok [⟨"DM", ["DM"], 0, 100, 1, 0⟩] := by
  norm_num [generate_feasible_trips, allCombos, MAX_PICKUPS, List.range_succ, combinations,
    processCombos, processCombo, check_capacity, check_time_window, max_wait_time,
    compute_trip_distance, direct_distances, df_at, scenarioMatrix, dMpx, MAX_WAIT_SLOT,
    MAX_DISTANCE_INCREASE, List.insertionSort, List.orderedInsert, max_def, min_def,
    trip_of]

/-- C9 counterexample.  A delivery picking up at the depot passes the
capacity, time-window, wait-time and detour checks with a direct-
distance sum of exactly 0 — refuting the claim that the sum is nonzero
for every combination passing the detour check — and the source then
performs the score division with a zero denominator: on numpy scalars
this raises nothing but yields a `nan` score, and the trip is appended
(the model's rational score value stands in for that `nan`; ℚ cannot
express it). -/
theorem score_division_cex :
    check_capacity [dMpx] 4000 15 = true ∧
    check_time_window [dMpx] = true ∧
    ¬(max_wait_time [dMpx] > MAX_WAIT_SLOT) ∧
    compute_trip_distance (([dMpx] : List Delivery).map Delivery.pickup_location ++ ["Mpx"])
      scenarioMatrix = some 0 ∧
    direct_distances [dMpx] scenarioMatrix = some 0 ∧
    ¬((0 : ℚ) > 0 * (1 + MAX_DISTANCE_INCREASE)) ∧
    ∃ sc, generate_feasible_trips [dMpx] 4000 15 scenarioMatrix [] =
      .ok [⟨"DM", ["DM"], 0, 100, 1, sc⟩] := by
  refine ⟨?_, ?_, ?_, ?_, ?_, ?_, ⟨0, depot_eval⟩⟩ <;>
  · norm_num [check_capacity, check_time_window, max_wait_time, MAX_WAIT_SLOT, dMpx,
      compute_trip_distance, direct_distances, df_at, scenarioMatrix,
      MAX_DISTANCE_INCREASE, List.insertionSort, List.orderedInsert, max_def, min_def]

lemma direct_distances_pos (m : DistMatrix) :
    ∀ combo : List Delivery,
      (∀ d ∈ combo, ∃ q, df_at m d.pickup_location "Mpx" = some q ∧ 0 < q) →
      ∃ s, direct_distances combo m = some s ∧ 0 ≤ s ∧ (combo ≠ [] → 0 < s) := by
  intro combo
  induction combo with
  | nil => intro _; exact ⟨0, rfl, le_refl 0, by simp⟩
  | cons d rest ih =>
    intro h
    obtain ⟨q, hq, hq0⟩ := h d (List.mem_cons_self _ _)
    obtain ⟨s, hs, hs0, _⟩ := ih fun d' hd' => h d' (List.mem_cons_of_mem _ hd')
    refine ⟨q + s, ?_, by linarith, fun _ => by linarith⟩
    have hcd : compute_trip_distance [d.pickup_location, "Mpx"] m = some q := by
      simp [compute_trip_distance, hq]
    unfold direct_distances
    rw [hcd, hs]

/-- C9 (amended).  The score division is safe whenever every member of
the combination has a strictly positive direct pickup-to-depot distance
(in particular for all pickups distinct from the depot under a table
that is positive off the diagonal): the direct-distance sum is then
positive, and every trip this combination contributes carries the
well-defined score `trip_distance / sum` with a nonzero denominator.  A
member picking up at the depot (direct distance 0, as in the
counterexample) breaks the original unconditional claim: the sum is 0
and the source divides by zero, producing a `nan` score. -/
theorem score_division_amended (combo : List Delivery) (m : DistMatrix)
    (capacity_kg capacity_m3 : ℚ) (hne : combo ≠ [])
    (hpos : ∀ d ∈ combo, ∃ q, df_at m d.pickup_location "Mpx" = some q ∧ 0 < q) :
    ∃ s, direct_distances combo m = some s ∧ 0 < s ∧
      ∀ t : Trip, processCombo capacity_kg capacity_m3 m combo = .ok (some t) →
        ∃ td, compute_trip_distance (combo.map Delivery.pickup_location ++ ["Mpx"]) m =
          some td ∧ t.score = td / s := by
  obtain ⟨s, hs, _, hpos'⟩ := direct_distances_pos m combo hpos
  refine ⟨s, hs, hpos' hne, ?_⟩
  intro t hok
  obtain ⟨_, _, _, td, dd, htd, hdd, _, hteq⟩ :=
    processCombo_ok_some capacity_kg capacity_m3 m combo t hok
  rw [hs] at hdd
  injection hdd with hdd'
  subst hdd'
  exact ⟨td, htd, by subst hteq; rfl⟩

/-- Witness for C9 (amended): the singleton combination of scenario
delivery `D0`, whose pickup is 10 away from the depot. -/
theorem score_division_amended_witness :
    ∃ s, direct_distances [sD0] scenarioMatrix = some s ∧ 0 < s ∧
      ∀ t : Trip, processCombo 4000 15 scenarioMatrix [sD0] = .ok (some t) →
        ∃ td, compute_trip_distance
          (([sD0] : List Delivery).map Delivery.pickup_location ++ ["Mpx"]) scenarioMatrix =
          some td ∧ t.score = td / s :=
  score_division_amended [sD0] scenarioMatrix 4000 15 (by simp)
    (by
      intro d hd
      simp only [List.mem_singleton] at hd
      subst hd
      exact ⟨10, by simp [df_at, scenarioMatrix, sD0], by norm_num⟩)

/-- A delivery whose pickup location is absent from the scenario
distance table. -/
def dBad : Delivery := ⟨"DB", "Pharma", 100, 1, 0, (5, 10), "GHA1", "Nowhere", 100, 1, []⟩

/-- C10 counterexample.  Scenario delivery `D0` satisfies every
hypothesis of the singleton-completeness claim — its weight/volume fit
the vehicle and its own availability, it is ready before its window
end, and its pickup-to-depot distance (10) is present in the table and
nonnegative — yet on the input list `[sD0, dBad]`, whose second
delivery has a pickup location missing from the table, the enumeration
reaches the `[dBad]` combination and raises `KeyError`
(`UnknownLocation`), so `generate_feasible_trips` returns no list at
all and in particular never outputs `D0`'s singleton trip. -/
theorem singleton_completeness_cex :
    sD0.weight_kg ≤ 4000 ∧ sD0.volume_m3 ≤ 15 ∧
    sD0.weight_kg ≤ sD0.available_weight ∧ sD0.volume_m3 ≤ sD0.available_volume ∧
    sD0.goods_ready ≤ sD0.delivery_window.2 ∧
    df_at scenarioMatrix sD0.pickup_location "Mpx" = some 10 ∧ (0 : ℚ) ≤ 10 ∧
    generate_feasible_trips [sD0, dBad] 4000 15 scenarioMatrix [] =
      .error .unknownLocation := by
  refine ⟨?_, ?_, ?_, ?_, ?_, ?_, by norm_num, ?_⟩
  · norm_num [sD0]
  · norm_num [sD0]
  · norm_num [sD0]
  · norm_num [sD0]
  · norm_num [sD0]
  · simp [df_at, scenarioMatrix, sD0]
  · norm_num [generate_feasible_trips, allCombos, MAX_PICKUPS, List.range_succ, combinations,
      processCombos, processCombo, check_capacity, check_time_window, max_wait_time,
      compute_trip_distance, direct_distances, df_at, scenarioMatrix, sD0, dBad,
      MAX_WAIT_SLOT, MAX_DISTANCE_INCREASE, List.insertionSort, List.orderedInsert,
      max_def, min_def]
    simp only [String.reduceEq, reduceIte]
    norm_num

/-- C10 (amended).  Singleton completeness holds provided generation
completes without an exception: whenever `generate_feasible_trips`
returns a trip list (only a `KeyError` from some combination's missing
location can prevent that, as in the counterexample), every input
delivery that fits the vehicle capacities and its own available
weight/volume, is ready no later than its window end, and whose
pickup-to-depot distance is present in the table and nonnegative,
contributes its singleton trip to the output; that trip's score is 1
whenever the distance is nonzero (a zero distance makes the source
compute a `nan` score, which ℚ cannot express, so nothing is asserted
about the score then). -/
theorem singleton_completeness_amended (ds : List Delivery) (capacity_kg capacity_m3 : ℚ)
    (m : DistMatrix) (incompat_set : List (String × String)) (trips : List Trip)
    (d : Delivery) (q : ℚ)
    (hok : generate_feasible_trips ds capacity_kg capacity_m3 m incompat_set = .ok trips)
    (hd : d ∈ ds)
    (hw : d.weight_kg ≤ capacity_kg) (hv : d.volume_m3 ≤ capacity_m3)
    (haw : d.weight_kg ≤ d.available_weight) (hav : d.volume_m3 ≤ d.available_volume)
    (ht : d.goods_ready ≤ d.delivery_window.2)
    (hq : df_at m d.pickup_location "Mpx" = some q) (hq0 : 0 ≤ q) :
    ∃ sc, (⟨d.id, [d.id], q, d.weight_kg, d.volume_m3, sc⟩ : Trip) ∈ trips ∧
      (q ≠ 0 → sc = 1) := by
  obtain ⟨r, hr, hin⟩ := processCombos_complete capacity_kg capacity_m3 m (allCombos ds)
    trips hok [d] (singleton_mem_allCombos d ds hd)
  have hc : check_capacity [d] capacity_kg capacity_m3 = true := by
    simp [check_capacity, hw, hv, haw, hav]
  have hctw : check_time_window [d] = true := by
    simp [check_time_window, ht]
  have hmw : max_wait_time [d] = 0 := by
    simp [max_wait_time, List.insertionSort, List.orderedInsert]
  have hcd : compute_trip_distance (([d] : List Delivery).map Delivery.pickup_location ++
      ["Mpx"]) m = some q := by
    simp [compute_trip_distance, hq]
  have hdd : direct_distances [d] m = some q := by
    simp [direct_distances, compute_trip_distance, hq]
  have hdet : ¬(q > q * (1 + MAX_DISTANCE_INCREASE)) := by
    rw [MAX_DISTANCE_INCREASE]
    intro hgt
    nlinarith
  rw [processCombo, if_neg (by simp [hc]), if_neg (by simp [hctw]),
    if_neg (by rw [hmw]; norm_num [MAX_WAIT_SLOT]), hcd] at hr
  simp only [] at hr
  rw [hdd] at hr
  simp only [] at hr
  rw [if_neg hdet] at hr
  have hrr : r = some (trip_of [d] q (q / q)) := by
    injection hr with h'
    exact h'.symm
  have hmem := hin (trip_of [d] q (q / q)) hrr
  have htf : trip_of [d] q (q / q) =
      (⟨d.id, [d.id], q, d.weight_kg, d.volume_m3, q / q⟩ : Trip) := by
    simp [trip_of]
  rw [htf] at hmem
  exact ⟨q / q, hmem, fun hq' => div_self hq'⟩

/-- Witness for C10 (amended): scenario delivery `D0` and its singleton
trip in the scenario run. -/
theorem singleton_completeness_amended_witness :
    ∃ sc, (⟨sD0.id, [sD0.id], 10, sD0.weight_kg, sD0.volume_m3, sc⟩ : Trip) ∈
      scenarioTrips ∧ ((10 : ℚ) ≠ 0 → sc = 1) :=
  singleton_completeness_amended scenarioDeliveries 4000 15 scenarioMatrix [] scenarioTrips
    sD0 10 scenario_eval (by simp [scenarioDeliveries]) (by norm_num [sD0])
    (by norm_num [sD0]) (by norm_num [sD0]) (by norm_num [sD0]) (by norm_num [sD0])
    (by simp [df_at, scenarioMatrix, sD0]) (by norm_num)

lemma mem_allBoolLists : ∀ (n : Nat) (bs : List Bool), bs.length = n → bs ∈ allBoolLists n := by
  intro n
  induction n with
  | zero =>
    intro bs h
    rw [List.length_eq_zero] at h
    subst h
    simp [allBoolLists]
  | succ k ih =>
    intro bs h
    cases bs with
    | nil => simp at h
    | cons b rest =>
      have hr : rest.length = k := by simpa using h
      have hmem := ih rest hr
      cases b
      · exact List.mem_flatMap.mpr ⟨rest, hmem, by simp⟩
      · exact List.mem_flatMap.mpr ⟨rest, hmem, by simp⟩

lemma scenario_feasible_iff :
    ∀ bs ∈ allBoolLists 7,
      satisfies_model (build_cover_model scenarioTrips scenarioDeliveries) (assignOf bs) ↔
        bs ∈ [[false, false, false, false, false, false, true],
              [true, false, false, false, false, true, false],
              [false, true, false, false, true, false, false],
              [false, false, true, true, false, false, false],
              [true, true, true, false, false, false, false]] := by
  set_option maxRecDepth 4000 in decide

/-- C6.  Same-location scenario: on three deliveries sharing one pickup
location (ready slots 0, 1, 1, window ends 10, capacities far above the
bundle totals, pickup-to-depot distance 10), the generator produces
exactly the three singleton trips, the three pairwise trips and the one
triple trip; among all 0/1 selections of these trips that cover every
delivery exactly once, the one selecting only the triple trip has
strictly minimal total score (1/3), and that optimal selection picks 1
trip, not 3. -/
theorem same_location_scenario :
    generate_feasible_trips scenarioDeliveries 4000 15 scenarioMatrix [] = .ok scenarioTrips ∧
    (∀ bs : List Bool, bs.length = 7 →
      satisfies_model (build_cover_model scenarioTrips scenarioDeliveries) (assignOf bs) →
      bs ≠ [false, false, false, false, false, false, true] →
      1/3 < model_obj (build_cover_model scenarioTrips scenarioDeliveries) (assignOf bs)) ∧
    satisfies_model (build_cover_model scenarioTrips scenarioDeliveries)
      (assignOf [false, false, false, false, false, false, true]) ∧
    model_obj (build_cover_model scenarioTrips scenarioDeliveries)
      (assignOf [false, false, false, false, false, false, true]) = 1/3 ∧
    ([false, false, false, false, false, false, true] : List Bool).count true = 1 := by
  refine ⟨scenario_eval, ?_, by set_option maxRecDepth 4000 in decide, ?_, by decide⟩
  · intro bs hlen hsat hne
    have hmem := (scenario_feasible_iff bs (mem_allBoolLists 7 bs hlen)).mp hsat
    simp only [List.mem_cons, List.not_mem_nil, or_false] at hmem
    rcases hmem with rfl | rfl | rfl | rfl | rfl
    · exact absurd rfl hne
    · norm_num [model_obj, build_cover_model, scenarioTrips, assignOf, List.range_succ]
    · norm_num [model_obj, build_cover_model, scenarioTrips, assignOf, List.range_succ]
    · norm_num [model_obj, build_cover_model, scenarioTrips, assignOf, List.range_succ]
    · norm_num [model_obj, build_cover_model, scenarioTrips, assignOf, List.range_succ]
  · norm_num [model_obj, build_cover_model, scenarioTrips, assignOf, List.range_succ]

/-- Witness for C6: the selection pairing `D0` with the `D1, D2` trip is
a valid cover but is strictly beaten by the triple trip. -/
theorem same_location_scenario_witness :
    ([true, false, false, false, false, true, false] : List Bool).length = 7 ∧
    satisfies_model (build_cover_model scenarioTrips scenarioDeliveries)
      (assignOf [true, false, false, false, false, true, false]) ∧
    ([true, false, false, false, false, true, false] : List Bool) ≠
      [false, false, false, false, false, false, true] ∧
    1/3 < model_obj (build_cover_model scenarioTrips scenarioDeliveries)
      (assignOf [true, false, false, false, false, true, false]) :=
  ⟨by decide, by set_option maxRecDepth 4000 in decide, by decide,
    same_location_scenario.2.1 [true, false, false, false, false, true, false]
      (by decide) (by set_option maxRecDepth 4000 in decide) (by decide)⟩
